import Mathlib

/-!
Verification of the `LLMChain` message-assembly and execution pipeline
(`src/chains/llm_chain.rs` of Abraxas-365/llm_rust).

The chain component is embedded shallowly: messages are role/content pairs,
the conversation history is the ordered list of messages it holds, the
backend is a function from grouped messages to a fallible response, and the
prompt collaborator is its accumulated input state plus a fallible render
function.  Mutation of `&mut self` is modelled by returning the updated
chain alongside the result.
-/

namespace LlmRust

/-- A chat message: a role tag (`get_type` in the source: "system", "user",
"ai", ...) and textual content (`get_content`). -/
structure Message where
  get_type : String
  get_content : String
deriving DecidableEq, Repr

/-- Modelled from the spec: the prompt collaborator's error kind
(`PromptError`, defined outside `src/`): rendering failed, e.g. a missing
template substitution. -/
inductive PromptError where
  | render_failure (msg : String)
deriving DecidableEq, Repr

/-- The chain-level error type (`ApiError`): either a wrapped prompt error
or an opaque backend failure. -/
inductive ApiError where
  | PromptError (e : LlmRust.PromptError)
  | backend_failure (msg : String)
deriving DecidableEq, Repr

/-- The two input shapes accepted by the prompt collaborator
(`PromptData::HashMapData` and `PromptData::VecData`). -/
inductive PromptData where
  | HashMapData (m : List (String × String))
  | VecData (v : List String)

/-- Insert one named value into an accumulated named-value state,
overwriting an existing binding for the same key. -/
def insert_named (m : List (String × String)) (kv : String × String) :
    List (String × String) :=
  if m.any (fun p => p.1 = kv.1) then
    m.map (fun p => if p.1 = kv.1 then kv else p)
  else m ++ [kv]

/-- Modelled from the spec: the prompt collaborator (`BasePromptValue`,
whose implementation `PromptTemplate` lies outside `src/`).  It carries the
accumulated named-value state, the accumulated positional values, and a
fallible render function producing the current turn's messages. -/
structure BasePromptValue where
  hmap_data : List (String × String)
  vec_data : List String
  render : List (String × String) → List String →
    Except PromptError (List Message)

/-- Modelled from the spec: `add_values` merges a named-value mapping into
the prompt's accumulated input state, or appends positional values to the
prompt's accumulated positional inputs. -/
def BasePromptValue.add_values (p : BasePromptValue) (d : PromptData) :
    BasePromptValue :=
  match d with
  | .HashMapData m => { p with hmap_data := m.foldl insert_named p.hmap_data }
  | .VecData v => { p with vec_data := p.vec_data ++ v }

/-- Modelled from the spec: `to_chat_messages` renders the accumulated
input state into the current turn's messages, fallibly. -/
def BasePromptValue.to_chat_messages (p : BasePromptValue) :
    Except PromptError (List Message) :=
  p.render p.hmap_data p.vec_data

/-- The chain (`LLMChain`).  The borrowed history store
(`memory: Option<&mut dyn BaseChatMessageHistory>`) is embedded as the
ordered list of messages it holds (`messages()` returns that list;
`add_message` appends); `none` means no history attached.  The backend
handle (`llm`) is its `generate` function on grouped messages. -/
structure LLMChain where
  prompt : BasePromptValue
  header_prompts : Option (List Message)
  sandwich_prompts : Option (List Message)
  llm : List (List Message) → Except ApiError Message
  memory : Option (List Message)

/-- `LLMChain::new`: a chain with the given prompt and backend, no memory,
no header, no sandwich. -/
def LLMChain.new (prompt : BasePromptValue)
    (llm : List (List Message) → Except ApiError Message) : LLMChain :=
  { prompt := prompt
    llm := llm
    memory := none
    header_prompts := none
    sandwich_prompts := none }

/-- `LLMChain::with_memory`: attach a history store (overwriting any prior
attachment). -/
def LLMChain.with_memory (c : LLMChain) (memory : List Message) : LLMChain :=
  { c with memory := some memory }

/-- `LLMChain::with_header_prompts`: set the fixed header block. -/
def LLMChain.with_header_prompts (c : LLMChain)
    (header_prompts : List Message) : LLMChain :=
  { c with header_prompts := some header_prompts }

/-- `LLMChain::sandwich_prompts` (the builder method; renamed here because
the field accessor takes that name): set the fixed sandwich block. -/
def LLMChain.with_sandwich_prompts (c : LLMChain)
    (sandwich_prompts : List Message) : LLMChain :=
  { c with sandwich_prompts := some sandwich_prompts }

/-- `LLMChain::order_messages`: push the header block if configured, then
the history contents (or an empty group when no history is attached), then
the sandwich block if configured, then the current turn's messages. -/
def LLMChain.order_messages (c : LLMChain)
    (prompt_messages : List Message) : List (List Message) :=
  let all_messages : List (List Message) := []
  let all_messages :=
    match c.header_prompts with
    | some header => all_messages ++ [header]
    | none => all_messages
  let all_messages :=
    all_messages ++ [(match c.memory with
      | some memory => memory
      | none => [])]
  let all_messages :=
    match c.sandwich_prompts with
    | some sandwich => all_messages ++ [sandwich]
    | none => all_messages
  all_messages ++ [prompt_messages]

/-- `LLMChain::execute`: order the messages, call the backend (propagating
failure), then, when a history is attached, append each non-system
current-turn message in order followed by the backend's response, and
return the response's content.  The updated chain is returned alongside
the result. -/
def LLMChain.execute (c : LLMChain) (prompt_messages : List Message) :
    Except ApiError String × LLMChain :=
  let all_messages := c.order_messages prompt_messages
  match c.llm all_messages with
  | .error e => (.error e, c)
  | .ok ai_response =>
    match c.memory with
    | some memory =>
      let memory := prompt_messages.foldl
        (fun acc message =>
          if message.get_type != "system" then acc ++ [message] else acc)
        memory
      (.ok ai_response.get_content,
        { c with memory := some (memory ++ [ai_response]) })
    | none => (.ok ai_response.get_content, c)

/-- `ChainTrait<HashMap<String, String>>::run`: merge the named inputs into
the prompt, render, propagate a render failure as a prompt error, else
delegate to `execute`. -/
def LLMChain.run_map (c : LLMChain) (inputs : List (String × String)) :
    Except ApiError String × LLMChain :=
  let c := { c with prompt := c.prompt.add_values (.HashMapData inputs) }
  match c.prompt.to_chat_messages with
  | .error e => (.error (.PromptError e), c)
  | .ok prompt_messages => c.execute prompt_messages

/-- `ChainTrait<String>::run`: append the single string as one positional
value, render, propagate a render failure as a prompt error, else delegate
to `execute`. -/
def LLMChain.run_string (c : LLMChain) (inputs : String) :
    Except ApiError String × LLMChain :=
  let c := { c with prompt := c.prompt.add_values (.VecData [inputs]) }
  match c.prompt.to_chat_messages with
  | .error e => (.error (.PromptError e), c)
  | .ok prompt_messages => c.execute prompt_messages

/-- The messages currently held by the chain's attached history (empty when
no history is attached). -/
def LLMChain.hist_messages (c : LLMChain) : List Message :=
  match c.memory with
  | some memory => memory
  | none => []

/-- The run pipeline as the spec words it (section 4.4): add the given
inputs to the prompt's accumulated input state, render the prompt to
messages, surface a render failure as a prompt-specific error without
calling the backend or touching history, and on success delegate the
rendered messages to `execute` unchanged. -/
def run_spec (c : LLMChain) (d : PromptData) :
    Except ApiError String × LLMChain :=
  let c := { c with prompt := c.prompt.add_values d }
  match c.prompt.to_chat_messages with
  | .error e => (.error (.PromptError e), c)
  | .ok prompt_messages => c.execute prompt_messages

/-- Either input shape a run can take. -/
inductive RunInput where
  | map_input (m : List (String × String))
  | string_input (s : String)

/-- Dispatch a run on either input shape. -/
def LLMChain.run_any (c : LLMChain) : RunInput →
    Except ApiError String × LLMChain
  | .map_input m => c.run_map m
  | .string_input s => c.run_string s

/-- The prompt data a run input shape feeds to `add_values`: the structured
mapping, or the single string as one positional value. -/
def RunInput.data : RunInput → PromptData
  | .map_input m => .HashMapData m
  | .string_input s => .VecData [s]

/-! Concrete collaborators used by the closed example and the witnesses. -/

/-- A prompt whose render never gets consulted by the theorems using it. -/
def dummy_prompt : BasePromptValue :=
  { hmap_data := []
    vec_data := []
    render := fun _ _ => .error (.render_failure "unused") }

/-- A prompt whose render fails exactly when no positional value has been
accumulated, for the render-failure claims: its map-shaped runs fail to
render while its string-shaped runs succeed. -/
def picky_prompt : BasePromptValue :=
  { hmap_data := []
    vec_data := []
    render := fun _ v =>
      if v.isEmpty then .error (.render_failure "needs a positional value")
      else .ok (v.map (fun s => ⟨"user", s⟩)) }

def helpful_system : Message := ⟨"system", "You are helpful"⟩

def hi_user : Message := ⟨"user", "Hi"⟩

def c5_expected : List (List Message) := [[helpful_system], [], [hi_user]]

def c5_response : Message := ⟨"ai", "Hello there"⟩

/-- A backend that answers only when invoked with exactly the expected
group sequence, so a successful call certifies the groups it received. -/
def c5_llm : List (List Message) → Except ApiError Message :=
  fun groups =>
    if groups = c5_expected then .ok c5_response
    else .error (.backend_failure "unexpected groups")

def c5_chain : LLMChain :=
  { prompt := dummy_prompt
    header_prompts := some [helpful_system]
    sandwich_prompts := none
    llm := c5_llm
    memory := none }

/-- Appending the non-system messages one by one by a left fold equals
appending the filtered list. -/
theorem persist_foldl (prompt_messages mem : List Message) :
    prompt_messages.foldl
      (fun acc message =>
        if message.get_type != "system" then acc ++ [message] else acc) mem
    = mem ++ prompt_messages.filter
        (fun message => message.get_type != "system") := by
  induction prompt_messages generalizing mem with
  | nil => simp
  | cons x xs ih =>
    rw [List.foldl_cons, List.filter_cons]
    cases h : (x.get_type != "system") with
    | true => rw [if_pos rfl, if_pos rfl, ih]; simp
    | false => rw [if_neg (by simp), if_neg (by simp), ih]

/-- C1: for every chain configuration and every current-turn message list,
`order_messages` returns, in order: the header block if and only if one is
configured, then exactly one history group holding the attached history's
contents (empty when none is attached), then the sandwich block if and
only if one is configured, then the current-turn messages last. -/
theorem order_messages_groups (c : LLMChain)
    (prompt_messages : List Message) :
    c.order_messages prompt_messages =
      (match c.header_prompts with
        | some header => [header]
        | none => []) ++
      [c.hist_messages] ++
      (match c.sandwich_prompts with
        | some sandwich => [sandwich]
        | none => []) ++
      [prompt_messages] := by
  cases hh : c.header_prompts <;> cases hs : c.sandwich_prompts <;>
    simp [LLMChain.order_messages, LLMChain.hist_messages, hh, hs]

/-- C9: `new` yields a chain with no memory, no header and no sandwich,
holding the given prompt and backend; `with_memory` attaches the given
history, overwrites any prior attachment, and leaves the prompt, backend,
header and sandwich fields unchanged. -/
theorem new_and_with_memory (p : BasePromptValue)
    (f : List (List Message) → Except ApiError Message)
    (mem mem₂ : List Message) (c : LLMChain) :
    (LLMChain.new p f).memory = none ∧
    (LLMChain.new p f).header_prompts = none ∧
    (LLMChain.new p f).sandwich_prompts = none ∧
    (LLMChain.new p f).prompt = p ∧
    (LLMChain.new p f).llm = f ∧
    (c.with_memory mem).memory = some mem ∧
    ((c.with_memory mem).with_memory mem₂).memory = some mem₂ ∧
    (c.with_memory mem).prompt = c.prompt ∧
    (c.with_memory mem).llm = c.llm ∧
    (c.with_memory mem).header_prompts = c.header_prompts ∧
    (c.with_memory mem).sandwich_prompts = c.sandwich_prompts :=
  ⟨rfl, rfl, rfl, rfl, rfl, rfl, rfl, rfl, rfl, rfl, rfl⟩

/-- C5: the chain with header [system: You are helpful], no sandwich and
no history, on current turn [user: Hi], invokes the backend with exactly
the groups [[system: You are helpful], [], [user: Hi]] (the backend here
errors on any other group sequence) and returns the response content
verbatim. -/
theorem c5_header_example :
    c5_chain.order_messages [hi_user] = [[helpful_system], [], [hi_user]] ∧
    (c5_chain.execute [hi_user]).1 = .ok "Hello there" ∧
    c5_response.get_content = "Hello there" := by
  refine ⟨rfl, ?_, rfl⟩
  rfl

/-- C2: when history is attached and the backend call succeeds, the new
history is the old history followed by exactly the non-system current-turn
messages in their original order and then the backend's response; system
current-turn messages are never appended. -/
theorem execute_success_appends (c : LLMChain)
    (prompt_messages mem : List Message) (ai_response : Message)
    (hmem : c.memory = some mem)
    (hllm : c.llm (c.order_messages prompt_messages) = .ok ai_response) :
    (c.execute prompt_messages).2.memory =
      some (mem ++
        prompt_messages.filter
          (fun message => message.get_type != "system") ++
        [ai_response]) ∧
    (c.execute prompt_messages).1 = .ok ai_response.get_content := by
  simp only [LLMChain.execute, hllm, hmem]
  rw [persist_foldl]
  simp

def w2_response : Message := ⟨"ai", "resp"⟩

def w2_chain : LLMChain :=
  { prompt := dummy_prompt
    header_prompts := none
    sandwich_prompts := none
    llm := fun _ => .ok w2_response
    memory := some [⟨"user", "old"⟩] }

/-- Witness for C2 at a concrete chain whose turn holds one system and one
user message. -/
theorem execute_success_appends_witness :
    (w2_chain.execute [⟨"system", "s"⟩, ⟨"user", "new"⟩]).2.memory =
      some ([⟨"user", "old"⟩] ++
        ([⟨"system", "s"⟩, ⟨"user", "new"⟩] : List Message).filter
          (fun message => message.get_type != "system") ++
        [w2_response]) ∧
    (w2_chain.execute [⟨"system", "s"⟩, ⟨"user", "new"⟩]).1 =
      .ok w2_response.get_content :=
  execute_success_appends w2_chain _ _ w2_response rfl rfl

/-- C3: when the backend call fails, `execute` returns that backend error
and leaves the whole chain — in particular the attached history —
unchanged. -/
theorem execute_backend_failure (c : LLMChain)
    (prompt_messages : List Message) (e : ApiError)
    (hllm : c.llm (c.order_messages prompt_messages) = .error e) :
    (c.execute prompt_messages).1 = .error e ∧
    (c.execute prompt_messages).2 = c ∧
    (c.execute prompt_messages).2.memory = c.memory := by
  simp [LLMChain.execute, hllm]

def w3_chain : LLMChain :=
  { prompt := dummy_prompt
    header_prompts := none
    sandwich_prompts := none
    llm := fun _ => .error (.backend_failure "down")
    memory := some [⟨"user", "old"⟩] }

/-- Witness for C3 at a concrete chain whose backend always fails. -/
theorem execute_backend_failure_witness :
    (w3_chain.execute [⟨"user", "new"⟩]).1 =
      .error (.backend_failure "down") ∧
    (w3_chain.execute [⟨"user", "new"⟩]).2 = w3_chain ∧
    (w3_chain.execute [⟨"user", "new"⟩]).2.memory = w3_chain.memory :=
  execute_backend_failure w3_chain [⟨"user", "new"⟩]
    (.backend_failure "down") rfl

/-- C6: with no history attached and a successful backend call, `execute`
mutates nothing (the chain it returns is the chain it was given) and still
returns the backend response's content. -/
theorem execute_no_memory_pure (c : LLMChain)
    (prompt_messages : List Message) (ai_response : Message)
    (hmem : c.memory = none)
    (hllm : c.llm (c.order_messages prompt_messages) = .ok ai_response) :
    c.execute prompt_messages = (.ok ai_response.get_content, c) := by
  simp [LLMChain.execute, hllm, hmem]

def w6_response : Message := ⟨"ai", "pong"⟩

def w6_chain : LLMChain :=
  { prompt := dummy_prompt
    header_prompts := none
    sandwich_prompts := none
    llm := fun _ => .ok w6_response
    memory := none }

/-- Witness for C6 at a concrete memory-free chain. -/
theorem execute_no_memory_pure_witness :
    w6_chain.execute [⟨"user", "ping"⟩] =
      (.ok w6_response.get_content, w6_chain) :=
  execute_no_memory_pure w6_chain [⟨"user", "ping"⟩] w6_response rfl rfl

/-- C4: for every run call of either input shape whose rendering fails,
the run returns the wrapped prompt error and the returned chain's memory
is the original one (history untouched); the backend function is
universally quantified and absent from the outcome, so the backend is
never consulted. -/
theorem run_render_failure (c : LLMChain) (i : RunInput) (e : PromptError)
    (f : List (List Message) → Except ApiError Message)
    (h : (c.prompt.add_values i.data).to_chat_messages = .error e) :
    ({ c with llm := f }).run_any i =
      (.error (.PromptError e),
        { c with llm := f, prompt := c.prompt.add_values i.data }) := by
  cases i with
  | map_input m =>
    simp only [RunInput.data] at h
    simp [LLMChain.run_any, LLMChain.run_map, RunInput.data, h]
  | string_input s =>
    simp only [RunInput.data] at h
    simp [LLMChain.run_any, LLMChain.run_string, RunInput.data, h]

def w4_llm : List (List Message) → Except ApiError Message :=
  fun _ => .ok ⟨"ai", "never"⟩

def w4_chain : LLMChain :=
  { prompt := picky_prompt
    header_prompts := none
    sandwich_prompts := none
    llm := w4_llm
    memory := some [⟨"user", "old"⟩] }

/-- Witness for C4 at a concrete chain whose map-shaped run fails to
render (even though its string-shaped runs would render fine). -/
theorem run_render_failure_witness :
    ({ w4_chain with llm := w4_llm }).run_any (.map_input [("k", "v")]) =
      (.error (.PromptError (.render_failure "needs a positional value")),
        { w4_chain with llm := w4_llm, prompt := w4_chain.prompt.add_values (RunInput.map_input [("k", "v")]).data }) :=
  run_render_failure w4_chain (.map_input [("k", "v")])
    (.render_failure "needs a positional value") w4_llm rfl

/-- C7: the two run entry points coincide with the single spec-side
pipeline `run_spec` — the structured run merges the mapping into the
accumulated named state, the single-string run appends one positional
value, and both render and hand the rendered messages to `execute`
unchanged. -/
theorem run_entry_points_refine_spec (c : LLMChain)
    (m : List (String × String)) (s : String) :
    c.run_map m = run_spec c (.HashMapData m) ∧
    c.run_string s = run_spec c (.VecData [s]) ∧
    (c.prompt.add_values (.VecData [s])).vec_data =
      c.prompt.vec_data ++ [s] ∧
    (c.prompt.add_values (.HashMapData m)).hmap_data =
      m.foldl insert_named c.prompt.hmap_data :=
  ⟨rfl, rfl, rfl, rfl⟩

/-- C10: every run call of either input shape adds the given inputs to the
prompt's accumulated state before rendering, so when rendering fails and
an error is returned, the returned chain — the one later runs operate on —
already retains the failed call's inputs in its prompt; the single-string
shape feeds the string as exactly one appended positional value. -/
theorem run_failure_retains_inputs (c : LLMChain) (i : RunInput)
    (e : PromptError)
    (h : (c.prompt.add_values i.data).to_chat_messages = .error e) :
    (c.run_any i).1 = .error (.PromptError e) ∧
    (c.run_any i).2.prompt = c.prompt.add_values i.data ∧
    ∀ s, (c.prompt.add_values (RunInput.string_input s).data).vec_data =
      c.prompt.vec_data ++ [s] := by
  cases i with
  | map_input m =>
    simp only [RunInput.data] at h
    refine ⟨?_, ?_, ?_⟩
    · simp [LLMChain.run_any, LLMChain.run_map, h]
    · simp [LLMChain.run_any, LLMChain.run_map, RunInput.data, h]
    · intro s
      simp [RunInput.data, BasePromptValue.add_values]
  | string_input s₀ =>
    simp only [RunInput.data] at h
    refine ⟨?_, ?_, ?_⟩
    · simp [LLMChain.run_any, LLMChain.run_string, h]
    · simp [LLMChain.run_any, LLMChain.run_string, RunInput.data, h]
    · intro s
      simp [RunInput.data, BasePromptValue.add_values]

def w10_chain : LLMChain :=
  { prompt := picky_prompt
    header_prompts := none
    sandwich_prompts := none
    llm := fun _ => .ok ⟨"ai", "never"⟩
    memory := none }

/-- Witness for C10 at a concrete chain whose map-shaped run fails to
render (while its string-shaped runs would render fine). -/
theorem run_failure_retains_inputs_witness :
    (w10_chain.run_any (.map_input [("a", "b")])).1 =
      .error (.PromptError (.render_failure "needs a positional value")) ∧
    (w10_chain.run_any (.map_input [("a", "b")])).2.prompt =
      w10_chain.prompt.add_values (RunInput.map_input [("a", "b")]).data ∧
    (∀ s, (w10_chain.prompt.add_values
        (RunInput.string_input s).data).vec_data =
      w10_chain.prompt.vec_data ++ [s]) :=
  run_failure_retains_inputs w10_chain (.map_input [("a", "b")])
    (.render_failure "needs a positional value") rfl

/-- `execute` only ever appends to the attached history, and preserves
whether a history is attached. -/
theorem execute_hist_extends (c : LLMChain)
    (prompt_messages : List Message) :
    ∃ a, (c.execute prompt_messages).2.hist_messages =
        c.hist_messages ++ a ∧
      (c.execute prompt_messages).2.memory.isSome = c.memory.isSome := by
  cases hr : c.llm (c.order_messages prompt_messages) with
  | error e => exact ⟨[], by simp [LLMChain.execute, hr]⟩
  | ok ai_response =>
    cases hm : c.memory with
    | none =>
      exact ⟨[], by simp [LLMChain.execute, hr, hm, LLMChain.hist_messages]⟩
    | some mem =>
      refine ⟨prompt_messages.filter
        (fun message => message.get_type != "system") ++ [ai_response], ?_⟩
      simp only [LLMChain.execute, hr, hm]
      rw [persist_foldl]
      simp [LLMChain.hist_messages, hm]

/-- A run on either input shape only ever appends to the attached history,
and preserves whether a history is attached. -/
theorem run_any_hist_extends (c : LLMChain) (i : RunInput) :
    ∃ a, (c.run_any i).2.hist_messages = c.hist_messages ++ a ∧
      (c.run_any i).2.memory.isSome = c.memory.isSome := by
  cases i with
  | map_input m =>
    cases hr : (c.prompt.add_values (.HashMapData m)).to_chat_messages with
    | error e =>
      exact ⟨[], by simp [LLMChain.run_any, LLMChain.run_map, hr,
        LLMChain.hist_messages]⟩
    | ok prompt_messages =>
      obtain ⟨a, ha, hp⟩ := execute_hist_extends
        { c with prompt := c.prompt.add_values (.HashMapData m) }
        prompt_messages
      refine ⟨a, ?_, ?_⟩
      · simpa [LLMChain.run_any, LLMChain.run_map, hr,
          LLMChain.hist_messages] using ha
      · simpa [LLMChain.run_any, LLMChain.run_map, hr] using hp
  | string_input s =>
    cases hr : (c.prompt.add_values (.VecData [s])).to_chat_messages with
    | error e =>
      exact ⟨[], by simp [LLMChain.run_any, LLMChain.run_string, hr,
        LLMChain.hist_messages]⟩
    | ok prompt_messages =>
      obtain ⟨a, ha, hp⟩ := execute_hist_extends
        { c with prompt := c.prompt.add_values (.VecData [s]) }
        prompt_messages
      refine ⟨a, ?_, ?_⟩
      · simpa [LLMChain.run_any, LLMChain.run_string, hr,
          LLMChain.hist_messages] using ha
      · simpa [LLMChain.run_any, LLMChain.run_string, hr] using hp

/-- C8: with history attached, two consecutive runs (of either input
shape) accumulate history monotonically — each call only appends, the
history length after the second call equals (hence is at least) the length
after the first call plus the number of messages appended by the second
call, and the history stays attached throughout. -/
theorem run_twice_monotone (c : LLMChain) (i₁ i₂ : RunInput)
    (h : c.memory.isSome = true) :
    ∃ a₁ a₂ : List Message,
      (c.run_any i₁).2.hist_messages = c.hist_messages ++ a₁ ∧
      ((c.run_any i₁).2.run_any i₂).2.hist_messages =
        (c.run_any i₁).2.hist_messages ++ a₂ ∧
      (((c.run_any i₁).2.run_any i₂).2.hist_messages).length =
        ((c.run_any i₁).2.hist_messages).length + a₂.length ∧
      (((c.run_any i₁).2.run_any i₂).2.hist_messages).length ≥
        ((c.run_any i₁).2.hist_messages).length + a₂.length ∧
      ((c.run_any i₁).2.run_any i₂).2.memory.isSome = true := by
  obtain ⟨a₁, h₁, p₁⟩ := run_any_hist_extends c i₁
  obtain ⟨a₂, h₂, p₂⟩ := run_any_hist_extends (c.run_any i₁).2 i₂
  exact ⟨a₁, a₂, h₁, h₂, by simp [h₂], by simp [h₂], by rw [p₂, p₁, h]⟩

def w8_chain : LLMChain :=
  { prompt := { hmap_data := []
                vec_data := []
                render := fun _ v => .ok (v.map (fun s => ⟨"user", s⟩)) }
    header_prompts := none
    sandwich_prompts := none
    llm := fun _ => .ok ⟨"ai", "ok"⟩
    memory := some [] }

/-- Witness for C8 at a concrete chain with an attached (initially empty)
history, run twice on single-string inputs. -/
theorem run_twice_monotone_witness :
    ∃ a₁ a₂ : List Message,
      (w8_chain.run_any (.string_input "one")).2.hist_messages =
        w8_chain.hist_messages ++ a₁ ∧
      ((w8_chain.run_any (.string_input "one")).2.run_any
        (.string_input "two")).2.hist_messages =
        (w8_chain.run_any (.string_input "one")).2.hist_messages ++ a₂ ∧
      ((((w8_chain.run_any (.string_input "one")).2.run_any
        (.string_input "two")).2.hist_messages)).length =
        (((w8_chain.run_any (.string_input "one")).2.hist_messages)).length
          + a₂.length ∧
      ((((w8_chain.run_any (.string_input "one")).2.run_any
        (.string_input "two")).2.hist_messages)).length ≥
        (((w8_chain.run_any (.string_input "one")).2.hist_messages)).length
          + a₂.length ∧
      ((w8_chain.run_any (.string_input "one")).2.run_any
        (.string_input "two")).2.memory.isSome = true :=
  run_twice_monotone w8_chain (.string_input "one") (.string_input "two")
    rfl

end LlmRust
